import Mathlib

/-!
Shallow embedding of the `nologd` log-ingestion daemon (`src/main.cpp`).

Bytes are modelled as natural numbers (`10` is the newline byte, `60` is
the character `<`, `62` is `>`, `48`..`57` are the digits, `32` is the
space character).  Buffers passed to the handlers are lists of bytes; the
bytes a handler forwards to its logger are the model's return value.

The reactor (`SocketObservable`) is modelled as an explicit state: the
association list `observers` keyed by descriptor (mirroring the
`std::map<int, shared_ptr<Observer>>`), the dispatch loop consumes a list
of readiness events.
-/

namespace Nologd

abbrev Byte := Nat

/-- ASCII digit test: `isdigit` applied to a byte: true exactly on the ASCII digits. -/
def isDigitByte (b : Byte) : Bool := 48 ≤ b && b ≤ 57

/-- The scan `do ++start; while (start < len && isdigit(buf[start]));` of
`SyslogHandler::handle`, started at index `s` (the handler starts it at 1).
Returns the final value of `start`.  The element access is guarded by
`s < buf.length`, as in the source. -/
def skipDigits (buf : List Byte) (s : Nat) : Nat :=
  if s < buf.length then
    if isDigitByte (buf.getD s 0) then skipDigits buf (s + 1) else s
  else s
termination_by buf.length - s
decreasing_by omega

/-- The tag scan of `SyslogHandler::handle`: when the first byte is `<`,
the index right after the scanned digits (the value of `start` at the
`buf[start] == '>'` test); `none` when the buffer is empty or does not
start with `<`. -/
def SyslogHandler.tagEnd : List Byte → Option Nat
  | [] => none
  | b :: t => if b = 60 then some (skipDigits (b :: t) 1) else none

/-- Reading `buf[i]` the way the C code does: the stored byte when
`i < len`, and otherwise the stale byte that happens to sit at `buf[len]`
in the 2048-byte stack buffer (modelled by the parameter `stale`). -/
def bufGetStale (buf : List Byte) (stale : Byte) (i : Nat) : Byte :=
  if i < buf.length then buf.getD i 0 else stale

/-- The final value of `start` in `SyslogHandler::handle`: after the digit
scan the code tests `buf[start] == '>'` with no bound check, so the test
can read the stale byte at index `len`. -/
def SyslogHandler.start (stale : Byte) (buf : List Byte) : Nat :=
  match SyslogHandler.tagEnd buf with
  | none => 0
  | some s => if bufGetStale buf stale s = 62 then s + 1 else s

/-- The loop `while (end > 0 && buf[end] == '\n') buf[end--] = '\0';`:
returns the final value of `end`.  `end` starts at `len - 1` (an `int`,
so `-1` on an empty buffer) and only decreases, so every access is in
bounds; the zeroed positions all lie strictly above the final `end`. -/
def SyslogHandler.trimEnd (buf : List Byte) (e : Int) : Int :=
  if 0 < e ∧ buf.getD e.toNat 0 = 10 then SyslogHandler.trimEnd buf (e - 1) else e
termination_by e.toNat
decreasing_by omega

/-- Model of `SyslogHandler::handle`: the bytes passed to `_logger->write(buf + start,
end - start)`.  A non-positive length writes nothing (`Int.toNat` clips it
to 0).  The in-place zeroing of trailing newline bytes touches only
indices above the final `end`, outside the written range, so the written
bytes are those of the unmodified buffer. -/
def SyslogHandler.handle (stale : Byte) (buf : List Byte) : List Byte :=
  let s := SyslogHandler.start stale buf
  let e := SyslogHandler.trimEnd buf ((buf.length : Int) - 1)
  (buf.drop s).take (e - (s : Int)).toNat

/-- Model of `JournalHandler::handle`: the loop replacing every newline byte by a
space byte in place, then `_logger->write(buf, len)`. -/
def JournalHandler.handle : List Byte → List Byte
  | [] => []
  | b :: t => (if b = 10 then 32 else b) :: JournalHandler.handle t

/-- Model of `StreamHandler::handle`: passes the buffer through unchanged. -/
def StreamHandler.handle (buf : List Byte) : List Byte := buf

/-- Model of `SocketReader::read`: `while ((len = ::read(sock_fd, buf, 2047)) > 0)
_handler->handle(buf, len);`.  The descriptor's currently available data
is `data`; each read returns the next at most 2047 bytes, and the loop ends
when no data remains.  The result is the list of chunks handed to the
handler, in order. -/
def SocketReader.read : List Byte → List (List Byte)
  | [] => []
  | b :: t => ((b :: t).take 2047) :: SocketReader.read ((b :: t).drop 2047)
termination_by l => l.length
decreasing_by simp [List.length_drop]; omega

/-! ## The observer registry and the reactor loop -/

/-- The kind of a watched endpoint: the two persistent datagram observers
(`SyslogObserver`, `SocketObserver`), the listening `StdoutObserver`, and
the ephemeral per-connection `StreamObserver`. -/
inductive EKind where
  | datagramSyslog
  | datagramJournal
  | streamListener
  | streamConnection
deriving DecidableEq, Repr

/-- A registered observer: its descriptor (`key()` returns `sock_fd`), its
kind, and an identity tag distinguishing distinct objects that may reuse
the same descriptor number over time. -/
structure Endpoint where
  fd : Nat
  kind : EKind
  eid : Nat
deriving DecidableEq, Repr

/-- State of the `std::map<int, shared_ptr<Observer>>` of `SocketObservable`,
modelled as an association list with (by invariant) unique keys. -/
abbrev Registry := List (Nat × Endpoint)

/-- Lookup `observers.find(key)`: the stored observer at `key`, if present. -/
def findObserver : Registry → Nat → Option Endpoint
  | [], _ => none
  | (k, v) :: t, key => if k = key then some v else findObserver t key

/-- Assignment `observers[key] = observer`: replaces the entry at `key` when present,
appends a new entry otherwise. -/
def storeObserver : Registry → Nat → Endpoint → Registry
  | [], k, v => [(k, v)]
  | (k', v') :: t, k, v => if k' = k then (k, v) :: t else (k', v') :: storeObserver t k v

/-- Erasure `observers.erase(key)`: removes the entry at `key`; removing an absent
key leaves the map unchanged.  (The preceding `epoll_ctl(EPOLL_CTL_DEL)`
has no modelled effect; its failure for an unwatched descriptor is
ignored by the code.) -/
def SocketObservable.delObserver : Registry → Nat → Registry
  | [], _ => []
  | (k', v') :: t, k => if k' = k then t else (k', v') :: SocketObservable.delObserver t k

/-- Model of `SocketObservable::addObserver`: subscribe the descriptor via
`epoll_addwatch` only when it is not yet a key, then store the observer
(overwriting any previous entry).  The second component records whether
`epoll_addwatch` was called. -/
def SocketObservable.addObserver (reg : Registry) (obs : Endpoint) : Registry × Bool :=
  (storeObserver reg obs.fd obs, (findObserver reg obs.fd).isNone)

/-- Construction `SyslogObserver::SyslogObserver`: `sock_fd = unix_open(SOCK_DGRAM, ...)`,
`throw runtime_error("socket failed")` when it is negative. -/
def SyslogObserver.make (fd : Int) : Except String Endpoint :=
  if fd < 0 then .error "socket failed" else .ok ⟨fd.toNat, .datagramSyslog, 0⟩

/-- Construction `SocketObserver::SocketObserver` (the structured datagram endpoint). -/
def SocketObserver.make (fd : Int) : Except String Endpoint :=
  if fd < 0 then .error "socket failed" else .ok ⟨fd.toNat, .datagramJournal, 1⟩

/-- Construction `StdoutObserver::StdoutObserver` (the stream listener). -/
def StdoutObserver.make (fd : Int) : Except String Endpoint :=
  if fd < 0 then .error "socket failed" else .ok ⟨fd.toNat, .streamListener, 2⟩

/-- Construction `StreamObserver::StreamObserver`: `sock_fd = unix_accept(listen_sock)`,
`throw runtime_error("accept failed")` when the accept returns a negative
value.  `eid` is the fresh identity given to the new object. -/
def StreamObserver.make (acceptRet : Int) (eid : Nat) : Except String Endpoint :=
  if acceptRet < 0 then .error "accept failed" else .ok ⟨acceptRet.toNat, .streamConnection, eid⟩

/-- One readiness notification delivered by `epoll_wait`: the ready
descriptor, together with the value `unix_accept` would return if the
ready observer is the listener (negative means the accept fails). -/
structure Event where
  fd : Nat
  acceptRet : Int
deriving DecidableEq, Repr

/-- The reactor state: the registry, a fresh-identity counter for newly
accepted connections, and two ghost histories — the observers notified so
far (in order) and the descriptors closed by connection teardown. -/
structure LoopState where
  reg : Registry
  nextId : Nat
  log : List Endpoint
  closed : List Nat
deriving DecidableEq, Repr

/-- One iteration body of `SocketObservable::loop` after `epoll_wait`
reports `ev.fd` ready: look the descriptor up (a miss is skipped), and
invoke the found observer's `notify`.  Datagram observers only drain
(registry untouched); a `StreamObserver` drains, then deregisters itself
(`notification.delObserver(sock_fd)`), dropping the sole strong reference,
so its destructor closes the descriptor; the `StdoutObserver` constructs a
`StreamObserver` from the accept result — a failed accept throws out of
`notify` — and registers it.  The drain itself is modelled separately by
`SocketReader.read`; here each invocation is recorded in the ghost log. -/
def notifyStep (s : LoopState) (ev : Event) : Except String LoopState :=
  match findObserver s.reg ev.fd with
  | none => .ok s
  | some e =>
    match e.kind with
    | .datagramSyslog => .ok { s with log := s.log ++ [e] }
    | .datagramJournal => .ok { s with log := s.log ++ [e] }
    | .streamConnection =>
        .ok { s with log := s.log ++ [e],
                     reg := SocketObservable.delObserver s.reg ev.fd,
                     closed := s.closed ++ [ev.fd] }
    | .streamListener =>
        match StreamObserver.make ev.acceptRet s.nextId with
        | .error m => .error m
        | .ok ne => .ok { s with log := s.log ++ [e],
                                 reg := (SocketObservable.addObserver s.reg ne).1,
                                 nextId := s.nextId + 1 }

/-- Model of `SocketObservable::loop`, driven by the list of readiness events the
process observes before shutdown: each event is dispatched in order; an
exception thrown from a `notify` terminates the loop at once, returned as
the second component together with the state at that point. -/
def SocketObservable.loop (s : LoopState) : List Event → LoopState × Option String
  | [] => (s, none)
  | ev :: rest =>
    match notifyStep s ev with
    | .error m => (s, some m)
    | .ok s' => SocketObservable.loop s' rest

/-- The state visible to the signal handler `SocketObservable::stop`: the
static `stopped` flag, the bytes written to `cout`, and the observers map
(the only other process-wide state of the reactor). -/
structure ObservableState where
  stopped : Bool
  out : List String
  reg : Registry
deriving DecidableEq, Repr

/-- Model of `SocketObservable::stop(signo)`: prints `"stopped signo = <signo>"` to
`cout` and sets the static `stopped` flag; the observers map is untouched. -/
def SocketObservable.stop (st : ObservableState) (signo : Int) : ObservableState :=
  { st with stopped := true,
            out := st.out ++ ["stopped signo = " ++ toString signo] }

/-- One `try { ... watcher.addObserver(obs); } catch (runtime_error &err)
{ cerr << err.what() << endl; }` block of `main`: on success the observer
is registered, on failure the message is appended to the diagnostic
stream and the registry is left alone. -/
def tryAddObserver (st : Registry × List String) (mk : Except String Endpoint) :
    Registry × List String :=
  match mk with
  | .ok e => ((SocketObservable.addObserver st.1 e).1, st.2)
  | .error m => (st.1, st.2 ++ [m])

/-- The three construction blocks of `main`, in source order, starting
from the empty watcher.  `sfd`, `jfd`, `ofd` are the descriptors the
socket-opening calls return for the syslog, structured and stdout
endpoints (negative means that construction fails). -/
def mainSetup (sfd jfd ofd : Int) : Registry × List String :=
  tryAddObserver
    (tryAddObserver
      (tryAddObserver ([], []) (SyslogObserver.make sfd))
      (SocketObserver.make jfd))
    (StdoutObserver.make ofd)

/-- Model of `main`: construct whatever endpoints succeed, then run
`watcher.loop()` over the readiness events; the diagnostics printed
during setup are returned alongside. -/
def mainRun (sfd jfd ofd : Int) (events : List Event) :
    (LoopState × Option String) × List String :=
  let st := mainSetup sfd jfd ofd
  (SocketObservable.loop ⟨st.1, 3, [], []⟩ events, st.2)

/-- Well-formedness of a reactor state: every stored observer is keyed by
its own descriptor and carries an identity below the fresh counter, and
the keys are distinct (as they are in a `std::map`). -/
def WFReg (s : LoopState) : Prop :=
  (∀ p ∈ s.reg, (p.2).fd = p.1 ∧ (p.2).eid < s.nextId) ∧ (s.reg.map Prod.fst).Nodup

/-- An endpoint that is nowhere stored, whose identity is below the fresh
counter, in a well-formed state: the configuration from which it can never
be notified again. -/
def Absent (s : LoopState) (e : Endpoint) : Prop :=
  (∀ p ∈ s.reg, p.2 ≠ e) ∧ e.eid < s.nextId ∧ WFReg s

/-! ## Registry lemmas -/

theorem findObserver_storeObserver_self (reg : Registry) (k : Nat) (v : Endpoint) :
    findObserver (storeObserver reg k v) k = some v := by
  induction reg with
  | nil => simp [storeObserver, findObserver]
  | cons p t ih =>
    obtain ⟨k', v'⟩ := p
    by_cases h : k' = k
    · simp [storeObserver, findObserver, h]
    · simp [storeObserver, findObserver, h, ih]

theorem mem_storeObserver {reg : Registry} {k : Nat} {v : Endpoint} {p : Nat × Endpoint}
    (hp : p ∈ storeObserver reg k v) : p ∈ reg ∨ p = (k, v) := by
  induction reg with
  | nil =>
    simp only [storeObserver, List.mem_singleton] at hp
    exact Or.inr hp
  | cons q t ih =>
    obtain ⟨k', v'⟩ := q
    by_cases h : k' = k
    · simp only [storeObserver, if_pos h] at hp
      rcases List.mem_cons.mp hp with h1 | h1
      · exact Or.inr h1
      · exact Or.inl (List.mem_cons_of_mem _ h1)
    · simp only [storeObserver, if_neg h] at hp
      rcases List.mem_cons.mp hp with h1 | h1
      · exact Or.inl (h1 ▸ List.mem_cons_self _ _)
      · rcases ih h1 with h2 | h2
        · exact Or.inl (List.mem_cons_of_mem _ h2)
        · exact Or.inr h2

theorem keys_storeObserver {reg : Registry} {k a : Nat} {v : Endpoint}
    (ha : a ∈ (storeObserver reg k v).map Prod.fst) : a = k ∨ a ∈ reg.map Prod.fst := by
  rcases List.mem_map.mp ha with ⟨p, hp, hpa⟩
  rcases mem_storeObserver hp with h | h
  · exact Or.inr (hpa ▸ List.mem_map_of_mem Prod.fst h)
  · subst h
    exact Or.inl hpa.symm

theorem nodup_storeObserver {reg : Registry} (k : Nat) (v : Endpoint)
    (hnd : (reg.map Prod.fst).Nodup) : ((storeObserver reg k v).map Prod.fst).Nodup := by
  induction reg with
  | nil => simp [storeObserver]
  | cons q t ih =>
    obtain ⟨k', v'⟩ := q
    simp only [List.map_cons, List.nodup_cons] at hnd
    by_cases h : k' = k
    · subst h
      simpa [storeObserver, List.nodup_cons] using hnd
    · simp only [storeObserver, if_neg h, List.map_cons, List.nodup_cons]
      refine ⟨fun hk' => ?_, ih hnd.2⟩
      rcases keys_storeObserver hk' with h1 | h1
      · exact h h1
      · exact hnd.1 h1

theorem mem_delObserver {reg : Registry} {k : Nat} {p : Nat × Endpoint}
    (hp : p ∈ SocketObservable.delObserver reg k) : p ∈ reg := by
  induction reg with
  | nil => simp [SocketObservable.delObserver] at hp
  | cons q t ih =>
    obtain ⟨k', v'⟩ := q
    by_cases h : k' = k
    · simp only [SocketObservable.delObserver, if_pos h] at hp
      exact List.mem_cons_of_mem _ hp
    · simp only [SocketObservable.delObserver, if_neg h] at hp
      rcases List.mem_cons.mp hp with h1 | h1
      · exact h1 ▸ List.mem_cons_self _ _
      · exact List.mem_cons_of_mem _ (ih h1)

theorem keys_delObserver_sublist (reg : Registry) (k : Nat) :
    ((SocketObservable.delObserver reg k).map Prod.fst).Sublist (reg.map Prod.fst) := by
  induction reg with
  | nil => simp [SocketObservable.delObserver]
  | cons q t ih =>
    obtain ⟨k', v'⟩ := q
    by_cases h : k' = k
    · simp only [SocketObservable.delObserver, if_pos h, List.map_cons]
      exact List.sublist_cons_self _ _
    · simp only [SocketObservable.delObserver, if_neg h, List.map_cons]
      exact ih.cons₂ k'

theorem nodup_delObserver {reg : Registry} (k : Nat)
    (hnd : (reg.map Prod.fst).Nodup) :
    ((SocketObservable.delObserver reg k).map Prod.fst).Nodup :=
  hnd.sublist (keys_delObserver_sublist reg k)

theorem findObserver_eq_none_of_not_mem_keys {reg : Registry} {key : Nat}
    (h : key ∉ reg.map Prod.fst) : findObserver reg key = none := by
  induction reg with
  | nil => rfl
  | cons q t ih =>
    obtain ⟨k', v'⟩ := q
    simp only [List.map_cons, List.mem_cons, not_or] at h
    simp [findObserver, Ne.symm h.1, ih h.2]

theorem findObserver_mem {reg : Registry} {key : Nat} {e : Endpoint}
    (h : findObserver reg key = some e) : (key, e) ∈ reg := by
  induction reg with
  | nil => simp [findObserver] at h
  | cons q t ih =>
    obtain ⟨k', v'⟩ := q
    by_cases hk : k' = key
    · subst hk
      simp only [findObserver, if_true, eq_self_iff_true, Option.some.injEq] at h
      subst h
      exact List.mem_cons_self _ _
    · simp only [findObserver, if_neg hk] at h
      exact List.mem_cons_of_mem _ (ih h)

theorem mem_delObserver_key_ne {reg : Registry} {k : Nat} {p : Nat × Endpoint}
    (hnd : (reg.map Prod.fst).Nodup)
    (hp : p ∈ SocketObservable.delObserver reg k) : p.1 ≠ k := by
  induction reg with
  | nil => simp [SocketObservable.delObserver] at hp
  | cons q t ih =>
    obtain ⟨k', v'⟩ := q
    simp only [List.map_cons, List.nodup_cons] at hnd
    by_cases h : k' = k
    · subst h
      simp only [SocketObservable.delObserver, if_pos rfl] at hp
      intro hpk
      exact hnd.1 (hpk ▸ List.mem_map_of_mem Prod.fst hp)
    · simp only [SocketObservable.delObserver, if_neg h] at hp
      rcases List.mem_cons.mp hp with h1 | h1
      · subst h1
        exact h
      · exact ih hnd.2 h1

theorem findObserver_delObserver_self {reg : Registry} (k : Nat)
    (hnd : (reg.map Prod.fst).Nodup) :
    findObserver (SocketObservable.delObserver reg k) k = none := by
  apply findObserver_eq_none_of_not_mem_keys
  intro hk
  rcases List.mem_map.mp hk with ⟨p, hp, hpa⟩
  exact mem_delObserver_key_ne hnd hp hpa

theorem delObserver_of_findObserver_none {reg : Registry} {key : Nat}
    (h : findObserver reg key = none) : SocketObservable.delObserver reg key = reg := by
  induction reg with
  | nil => rfl
  | cons q t ih =>
    obtain ⟨k', v'⟩ := q
    by_cases hk : k' = key
    · subst hk
      simp [findObserver] at h
    · simp only [findObserver, if_neg hk] at h
      simp [SocketObservable.delObserver, hk, ih h]

/-! ## Step and loop lemmas -/

theorem wfReg_notifyStep {s s' : LoopState} {ev : Event}
    (hwf : WFReg s) (hstep : notifyStep s ev = .ok s') :
    WFReg s' ∧ s.nextId ≤ s'.nextId := by
  obtain ⟨hmem, hnd⟩ := hwf
  cases hfind : findObserver s.reg ev.fd with
  | none =>
    simp only [notifyStep, hfind, Except.ok.injEq] at hstep
    subst hstep
    exact ⟨⟨hmem, hnd⟩, le_refl _⟩
  | some e =>
    simp only [notifyStep, hfind] at hstep
    cases hk : e.kind <;> simp only [hk] at hstep
    · simp only [Except.ok.injEq] at hstep
      subst hstep
      exact ⟨⟨hmem, hnd⟩, le_refl _⟩
    · simp only [Except.ok.injEq] at hstep
      subst hstep
      exact ⟨⟨hmem, hnd⟩, le_refl _⟩
    · by_cases har : ev.acceptRet < 0
      · simp [StreamObserver.make, if_pos har] at hstep
      · simp only [StreamObserver.make, if_neg har, Except.ok.injEq] at hstep
        subst hstep
        refine ⟨⟨fun p hp => ?_, nodup_storeObserver _ _ hnd⟩, Nat.le_succ _⟩
        rcases mem_storeObserver hp with h1 | h1
        · exact ⟨(hmem p h1).1, Nat.lt_succ_of_lt (hmem p h1).2⟩
        · subst h1
          exact ⟨rfl, Nat.lt_succ_self _⟩
    · simp only [Except.ok.injEq] at hstep
      subst hstep
      exact ⟨⟨fun p hp => hmem p (mem_delObserver hp), nodup_delObserver _ hnd⟩, le_refl _⟩

theorem absent_notifyStep {s s' : LoopState} {e : Endpoint} {ev : Event}
    (ha : Absent s e) (hstep : notifyStep s ev = .ok s') :
    Absent s' e ∧ ∃ t, s'.log = s.log ++ t ∧ e ∉ t := by
  obtain ⟨hout, hlt, hwf⟩ := ha
  have hwf' := wfReg_notifyStep hwf hstep
  cases hfind : findObserver s.reg ev.fd with
  | none =>
    simp only [notifyStep, hfind, Except.ok.injEq] at hstep
    subst hstep
    exact ⟨⟨hout, hlt, hwf⟩, [], by simp⟩
  | some e2 =>
    have he2 : e2 ≠ e := hout _ (findObserver_mem hfind)
    simp only [notifyStep, hfind] at hstep
    cases hk : e2.kind <;> simp only [hk] at hstep
    · simp only [Except.ok.injEq] at hstep
      subst hstep
      exact ⟨⟨hout, hlt, hwf'.1⟩, [e2], by simp [Ne.symm he2]⟩
    · simp only [Except.ok.injEq] at hstep
      subst hstep
      exact ⟨⟨hout, hlt, hwf'.1⟩, [e2], by simp [Ne.symm he2]⟩
    · by_cases har : ev.acceptRet < 0
      · simp [StreamObserver.make, if_pos har] at hstep
      · simp only [StreamObserver.make, if_neg har, Except.ok.injEq] at hstep
        subst hstep
        refine ⟨⟨fun p hp => ?_, Nat.lt_succ_of_lt hlt, hwf'.1⟩, [e2], by simp [Ne.symm he2]⟩
        rcases mem_storeObserver hp with h1 | h1
        · exact hout p h1
        · subst h1
          intro hne
          exact absurd (hne ▸ rfl : e.eid = s.nextId) (Nat.ne_of_lt hlt)
    · simp only [Except.ok.injEq] at hstep
      subst hstep
      exact ⟨⟨fun p hp => hout p (mem_delObserver hp), hlt, hwf'.1⟩, [e2], by simp [Ne.symm he2]⟩

theorem absent_loop {s : LoopState} {e : Endpoint} (ha : Absent s e) :
    ∀ evs : List Event, ∃ t, (SocketObservable.loop s evs).1.log = s.log ++ t ∧ e ∉ t := by
  intro evs
  induction evs generalizing s with
  | nil => exact ⟨[], by simp [SocketObservable.loop]⟩
  | cons ev rest ih =>
    cases hstep : notifyStep s ev with
    | error m =>
      refine ⟨[], ?_⟩
      simp [SocketObservable.loop, hstep]
    | ok s' =>
      obtain ⟨ha', t1, hlog1, hnt1⟩ := absent_notifyStep ha hstep
      obtain ⟨t2, hlog2, hnt2⟩ := ih ha'
      refine ⟨t1 ++ t2, ?_, ?_⟩
      · simp [SocketObservable.loop, hstep, hlog2, hlog1]
      · simp [hnt1, hnt2]

theorem journalHandle_eq_map (buf : List Byte) :
    JournalHandler.handle buf = buf.map (fun b => if b = 10 then 32 else b) := by
  induction buf with
  | nil => rfl
  | cons b t ih => simp [JournalHandler.handle, ih]

theorem socketReader_read_join (data : List Byte) : (SocketReader.read data).flatten = data := by
  induction data using SocketReader.read.induct with
  | case1 => simp [SocketReader.read]
  | case2 b t ih =>
    simp only [List.drop_succ_cons] at ih
    simp [SocketReader.read, ih, List.take_append_drop]

theorem socketReader_read_chunks_ne_nil (data : List Byte) :
    ∀ c ∈ SocketReader.read data, c ≠ [] := by
  induction data using SocketReader.read.induct with
  | case1 => simp [SocketReader.read]
  | case2 b t ih =>
    intro c hc
    simp only [SocketReader.read, List.mem_cons] at hc
    rcases hc with h | h
    · subst h
      intro hnil
      have hlen := congrArg List.length hnil
      simp only [List.length_take, List.length_cons, List.length_nil] at hlen
      omega
    · exact ih c h

/-! ## Claims -/

/-- Claim C1 (refuted by the code; the code is the slip): handling the
input bytes `<13>hello\n` is claimed to forward `hello`, and an untagged
input is claimed to be forwarded verbatim minus trailing newlines.  The
handler passes `end - start` as the length to `write`, where `end` is the
index of the last kept byte, so the byte at `end` itself is always
dropped: `<13>hello\n` forwards `hell`, and the untagged input `hi`
forwards `h`.  (The result is independent of the stale byte beyond the
buffer, which this input never reaches.) -/
theorem syslogHandler_drops_last_byte :
    ∀ stale : Byte,
      SyslogHandler.handle stale [60, 49, 51, 62, 104, 101, 108, 108, 111, 10]
          = [104, 101, 108, 108] ∧
      SyslogHandler.handle stale [60, 49, 51, 62, 104, 101, 108, 108, 111, 10]
          ≠ [104, 101, 108, 108, 111] ∧
      SyslogHandler.handle stale [104, 105] = [104] := by
  intro stale
  refine ⟨?_, ?_, ?_⟩ <;>
    simp [SyslogHandler.handle, SyslogHandler.start, SyslogHandler.tagEnd, skipDigits,
      bufGetStale, SyslogHandler.trimEnd, isDigitByte]

/-- Claim C2, counterexample: with descriptor 5 already registered,
registering a second endpoint with descriptor 5 does not fail — it
replaces the stored endpoint, so the original registration is not left
intact. -/
theorem addObserver_duplicate_overwrites_cex :
    findObserver
        (SocketObservable.addObserver [(5, ⟨5, EKind.datagramSyslog, 0⟩)]
          ⟨5, EKind.streamConnection, 1⟩).1 5
      = some (⟨5, EKind.streamConnection, 1⟩ : Endpoint) ∧
    some (⟨5, EKind.streamConnection, 1⟩ : Endpoint)
      ≠ some (⟨5, EKind.datagramSyslog, 0⟩ : Endpoint) := by
  decide

/-- Claim C2, amended: for every registry state and every endpoint whose
descriptor is already a key, `addObserver` does not fail (it is a total
operation with no `DuplicateDescriptor` outcome): it skips the
readiness-handle subscription and stores the new endpoint, overwriting
the original registration. -/
theorem addObserver_duplicate_no_error_replaces (reg : Registry) (obs old : Endpoint)
    (h : findObserver reg obs.fd = some old) :
    (SocketObservable.addObserver reg obs).2 = false ∧
    findObserver (SocketObservable.addObserver reg obs).1 obs.fd = some obs := by
  constructor
  · simp [SocketObservable.addObserver, h]
  · simpa [SocketObservable.addObserver] using
      findObserver_storeObserver_self reg obs.fd obs

/-- Witness for the amended claim C2 at a concrete registry. -/
theorem addObserver_duplicate_no_error_replaces_witness :
    findObserver [(5, (⟨5, EKind.datagramSyslog, 0⟩ : Endpoint))]
        (⟨5, EKind.streamConnection, 1⟩ : Endpoint).fd
      = some (⟨5, EKind.datagramSyslog, 0⟩ : Endpoint) ∧
    ((SocketObservable.addObserver [(5, ⟨5, EKind.datagramSyslog, 0⟩)]
        ⟨5, EKind.streamConnection, 1⟩).2 = false ∧
      findObserver (SocketObservable.addObserver [(5, ⟨5, EKind.datagramSyslog, 0⟩)]
          ⟨5, EKind.streamConnection, 1⟩).1
          (⟨5, EKind.streamConnection, 1⟩ : Endpoint).fd
        = some (⟨5, EKind.streamConnection, 1⟩ : Endpoint)) :=
  ⟨by decide, addObserver_duplicate_no_error_replaces [(5, ⟨5, EKind.datagramSyslog, 0⟩)]
    ⟨5, EKind.streamConnection, 1⟩ ⟨5, EKind.datagramSyslog, 0⟩ (by decide)⟩

/-- Claim C3, counterexample: a readiness notification for the listener
whose accept fails makes the notification handler raise `accept failed`
(the `StreamObserver` constructor throws and nothing catches it), and the
dispatch loop terminates with that error instead of continuing. -/
theorem acceptFailure_error_escapes_cex :
    notifyStep ⟨[(3, ⟨3, EKind.streamListener, 2⟩)], 3, [], []⟩ ⟨3, -1⟩
      = Except.error "accept failed" ∧
    SocketObservable.loop ⟨[(3, ⟨3, EKind.streamListener, 2⟩)], 3, [], []⟩ [⟨3, -1⟩]
      = (⟨[(3, ⟨3, EKind.streamListener, 2⟩)], 3, [], []⟩, some "accept failed") := by
  constructor <;> rfl

/-- Claim C3, amended: for every readiness notification delivered to the
stream listener on which the accept fails, no connection endpoint is
created or registered (the state is unchanged), but the failure is not
swallowed: the error propagates out of the listener's notification
handler and terminates the dispatch loop. -/
theorem acceptFailure_propagates_and_halts_loop (s : LoopState) (fd : Nat) (e : Endpoint)
    (ar : Int) (rest : List Event)
    (hfind : findObserver s.reg fd = some e) (hk : e.kind = EKind.streamListener)
    (har : ar < 0) :
    notifyStep s ⟨fd, ar⟩ = Except.error "accept failed" ∧
    SocketObservable.loop s (⟨fd, ar⟩ :: rest) = (s, some "accept failed") := by
  have h1 : notifyStep s ⟨fd, ar⟩ = Except.error "accept failed" := by
    simp [notifyStep, hfind, hk, StreamObserver.make, har]
  exact ⟨h1, by simp [SocketObservable.loop, h1]⟩

/-- Witness for the amended claim C3 at a concrete state. -/
theorem acceptFailure_propagates_and_halts_loop_witness :
    findObserver [(4, (⟨4, EKind.streamListener, 2⟩ : Endpoint))] 4
        = some (⟨4, EKind.streamListener, 2⟩ : Endpoint) ∧
    (⟨4, EKind.streamListener, 2⟩ : Endpoint).kind = EKind.streamListener ∧
    (-2 : Int) < 0 ∧
    (notifyStep ⟨[(4, ⟨4, EKind.streamListener, 2⟩)], 3, [], []⟩ ⟨4, -2⟩
        = Except.error "accept failed" ∧
      SocketObservable.loop ⟨[(4, ⟨4, EKind.streamListener, 2⟩)], 3, [], []⟩ [⟨4, -2⟩]
        = (⟨[(4, ⟨4, EKind.streamListener, 2⟩)], 3, [], []⟩, some "accept failed")) :=
  ⟨by decide, rfl, by decide,
    acceptFailure_propagates_and_halts_loop ⟨[(4, ⟨4, EKind.streamListener, 2⟩)], 3, [], []⟩
      4 ⟨4, EKind.streamListener, 2⟩ (-2) [] (by decide) rfl (by decide)⟩

/-- Claim C4: in a well-formed reactor state, a registered
stream-connection endpoint that receives its (single) notification always
ends deregistered (its descriptor is no longer a registry key) and its
descriptor closed, whatever the accept oracle says (the peer's state is
irrelevant — the teardown in `StreamObserver::notify` is unconditional);
and in every subsequent dispatch sequence it is never notified again. -/
theorem streamConnection_one_shot (s : LoopState) (fd : Nat) (e : Endpoint) (ar : Int)
    (hwf : WFReg s) (hfind : findObserver s.reg fd = some e)
    (hk : e.kind = EKind.streamConnection) :
    ∃ s', notifyStep s ⟨fd, ar⟩ = Except.ok s' ∧
      findObserver s'.reg fd = none ∧
      fd ∈ s'.closed ∧
      s'.log = s.log ++ [e] ∧
      ∀ evs : List Event, ∃ t,
        (SocketObservable.loop s' evs).1.log = s'.log ++ t ∧ e ∉ t := by
  obtain ⟨hmem, hnd⟩ := hwf
  have hefd : e.fd = fd := (hmem _ (findObserver_mem hfind)).1
  have heid : e.eid < s.nextId := (hmem _ (findObserver_mem hfind)).2
  refine ⟨⟨SocketObservable.delObserver s.reg fd, s.nextId,
    s.log ++ [e], s.closed ++ [fd]⟩, ?_, ?_, ?_, ?_, ?_⟩
  · simp [notifyStep, hfind, hk]
  · exact findObserver_delObserver_self fd hnd
  · simp
  · rfl
  · have habs : Absent ⟨SocketObservable.delObserver s.reg fd, s.nextId,
        s.log ++ [e], s.closed ++ [fd]⟩ e := by
      refine ⟨?_, heid, ?_, ?_⟩
      · intro p hp hpe
        have hpk := mem_delObserver_key_ne hnd hp
        have hpfd := (hmem p (mem_delObserver hp)).1
        exact hpk (by rw [hpe] at hpfd; rw [← hpfd, hefd])
      · exact fun p hp => hmem p (mem_delObserver hp)
      · exact nodup_delObserver _ hnd
    intro evs
    exact absent_loop habs evs

/-- Witness for claim C4 at a concrete one-connection state. -/
theorem streamConnection_one_shot_witness :
    WFReg ⟨[(7, ⟨7, EKind.streamConnection, 0⟩)], 1, [], []⟩ ∧
    findObserver [(7, (⟨7, EKind.streamConnection, 0⟩ : Endpoint))] 7
        = some (⟨7, EKind.streamConnection, 0⟩ : Endpoint) ∧
    (∃ s', notifyStep ⟨[(7, ⟨7, EKind.streamConnection, 0⟩)], 1, [], []⟩ ⟨7, 5⟩
          = Except.ok s' ∧
      findObserver s'.reg 7 = none ∧
      7 ∈ s'.closed ∧
      s'.log = [] ++ [⟨7, EKind.streamConnection, 0⟩] ∧
      ∀ evs : List Event, ∃ t,
        (SocketObservable.loop s' evs).1.log = s'.log ++ t ∧
          (⟨7, EKind.streamConnection, 0⟩ : Endpoint) ∉ t) :=
  ⟨⟨by decide, by decide⟩, by decide,
    streamConnection_one_shot _ 7 _ 5 ⟨by decide, by decide⟩ (by decide) rfl⟩

/-- Claim C5: draining a descriptor holding `k > 0` bytes followed by
end-of-data produces one or more chunks, each nonempty, whose
concatenation is exactly the original bytes, and the drain terminates
(the chunk list is finite by construction). -/
theorem socketReader_drains_exactly (data : List Byte) (h : data ≠ []) :
    SocketReader.read data ≠ [] ∧
    (∀ c ∈ SocketReader.read data, c ≠ []) ∧
    (SocketReader.read data).flatten = data := by
  refine ⟨?_, socketReader_read_chunks_ne_nil data, socketReader_read_join data⟩
  cases data with
  | nil => exact absurd rfl h
  | cons b t => simp [SocketReader.read]

/-- Witness for claim C5 on a three-byte descriptor. -/
theorem socketReader_drains_exactly_witness :
    ([1, 2, 3] : List Byte) ≠ [] ∧
    (SocketReader.read [1, 2, 3] ≠ [] ∧
      (∀ c ∈ SocketReader.read [1, 2, 3], c ≠ []) ∧
      (SocketReader.read [1, 2, 3]).flatten = [1, 2, 3]) :=
  ⟨by decide, socketReader_drains_exactly [1, 2, 3] (by decide)⟩

/-- Claim C6: the journal line handler forwards exactly the input with
every newline byte (10) replaced by a space byte (32), all other bytes
unchanged, at unchanged length; in particular `line one\nline two` yields
`line one line two`. -/
theorem journalHandler_folds_newlines :
    (∀ buf : List Byte,
      JournalHandler.handle buf = buf.map (fun b => if b = 10 then 32 else b) ∧
      (JournalHandler.handle buf).length = buf.length) ∧
    JournalHandler.handle
        [108, 105, 110, 101, 32, 111, 110, 101, 10, 108, 105, 110, 101, 32, 116, 119, 111]
      = [108, 105, 110, 101, 32, 111, 110, 101, 32, 108, 105, 110, 101, 32, 116, 119, 111] := by
  refine ⟨fun buf => ⟨journalHandle_eq_map buf, ?_⟩, by decide⟩
  rw [journalHandle_eq_map]
  simp

/-- Claim C7, counterexample: the interrupt/terminate handler does not
only set the flag — it also writes a diagnostic line to standard output
from the signal context. -/
theorem stop_handler_writes_output_cex :
    (SocketObservable.stop ⟨false, [], []⟩ 2).out ≠ [] := by
  simp [SocketObservable.stop]

/-- Claim C7, amended: the handler sets the process-wide `stopped` flag
and, in addition, writes one diagnostic line to standard output; it
performs no other state mutation (the observers registry is untouched). -/
theorem stop_handler_sets_flag_and_prints (st : ObservableState) (signo : Int) :
    (SocketObservable.stop st signo).stopped = true ∧
    (SocketObservable.stop st signo).out
        = st.out ++ ["stopped signo = " ++ toString signo] ∧
    (SocketObservable.stop st signo).reg = st.reg :=
  ⟨rfl, rfl, rfl⟩

/-- Claim C8: unregistering a descriptor that is not a registry key is a
no-op — the operation is total (never raises) and leaves the mapping
unchanged. -/
theorem delObserver_absent_noop (reg : Registry) (key : Nat)
    (h : findObserver reg key = none) :
    SocketObservable.delObserver reg key = reg :=
  delObserver_of_findObserver_none h

/-- Witness for claim C8 at a concrete registry. -/
theorem delObserver_absent_noop_witness :
    findObserver [(3, (⟨3, EKind.datagramSyslog, 0⟩ : Endpoint))] 9 = none ∧
    SocketObservable.delObserver [(3, ⟨3, EKind.datagramSyslog, 0⟩)] 9
      = [(3, ⟨3, EKind.datagramSyslog, 0⟩)] :=
  ⟨by decide, delObserver_absent_noop _ 9 (by decide)⟩

/-- Claim C9: when exactly one of the three persistent endpoint
constructions fails (its socket call returns a negative descriptor), the
failure is reported on the diagnostic stream, the failed endpoint is
absent from the registry, the two surviving endpoints are constructed and
registered under their descriptors, and `main` still reaches and runs the
dispatch loop. -/
theorem main_one_failed_endpoint_registers_rest (sfd jfd ofd : Int)
    (hone : (sfd < 0 ∧ 0 ≤ jfd ∧ 0 ≤ ofd) ∨ (0 ≤ sfd ∧ jfd < 0 ∧ 0 ≤ ofd) ∨
      (0 ≤ sfd ∧ 0 ≤ jfd ∧ ofd < 0))
    (hd1 : sfd.toNat ≠ jfd.toNat) (hd2 : sfd.toNat ≠ ofd.toNat)
    (hd3 : jfd.toNat ≠ ofd.toNat) :
    (mainSetup sfd jfd ofd).2 = ["socket failed"] ∧
    (0 ≤ sfd → findObserver (mainSetup sfd jfd ofd).1 sfd.toNat
        = some ⟨sfd.toNat, EKind.datagramSyslog, 0⟩) ∧
    (0 ≤ jfd → findObserver (mainSetup sfd jfd ofd).1 jfd.toNat
        = some ⟨jfd.toNat, EKind.datagramJournal, 1⟩) ∧
    (0 ≤ ofd → findObserver (mainSetup sfd jfd ofd).1 ofd.toNat
        = some ⟨ofd.toNat, EKind.streamListener, 2⟩) ∧
    (sfd < 0 → ∀ p ∈ (mainSetup sfd jfd ofd).1, (p.2).kind ≠ EKind.datagramSyslog) ∧
    (jfd < 0 → ∀ p ∈ (mainSetup sfd jfd ofd).1, (p.2).kind ≠ EKind.datagramJournal) ∧
    (ofd < 0 → ∀ p ∈ (mainSetup sfd jfd ofd).1, (p.2).kind ≠ EKind.streamListener) ∧
    (mainRun sfd jfd ofd []).1 = (⟨(mainSetup sfd jfd ofd).1, 3, [], []⟩, none) := by
  have hrun : (mainRun sfd jfd ofd []).1 = (⟨(mainSetup sfd jfd ofd).1, 3, [], []⟩, none) := by
    simp [mainRun, SocketObservable.loop]
  rcases hone with ⟨hs, hj, ho⟩ | ⟨hs, hj, ho⟩ | ⟨hs, hj, ho⟩
  · have hj' : ¬ jfd < 0 := not_lt.mpr hj
    have ho' : ¬ ofd < 0 := not_lt.mpr ho
    have hsetup : mainSetup sfd jfd ofd =
        ([(jfd.toNat, ⟨jfd.toNat, EKind.datagramJournal, 1⟩),
          (ofd.toNat, ⟨ofd.toNat, EKind.streamListener, 2⟩)], ["socket failed"]) := by
      simp [mainSetup, tryAddObserver, SyslogObserver.make, SocketObserver.make,
        StdoutObserver.make, SocketObservable.addObserver, storeObserver, hs, hj', ho', hd3]
    refine ⟨by simp [hsetup], ?_, ?_, ?_, ?_, ?_, ?_, hrun⟩
    · intro hc
      exact absurd hs (not_lt.mpr hc)
    · intro _
      simp [hsetup, findObserver]
    · intro _
      simp [hsetup, findObserver, hd3]
    · intro _ p hp
      simp [hsetup] at hp
      rcases hp with h | h <;> simp [h]
    · exact fun hc => absurd hc hj'
    · exact fun hc => absurd hc ho'
  · have hs' : ¬ sfd < 0 := not_lt.mpr hs
    have ho' : ¬ ofd < 0 := not_lt.mpr ho
    have hsetup : mainSetup sfd jfd ofd =
        ([(sfd.toNat, ⟨sfd.toNat, EKind.datagramSyslog, 0⟩),
          (ofd.toNat, ⟨ofd.toNat, EKind.streamListener, 2⟩)], ["socket failed"]) := by
      simp [mainSetup, tryAddObserver, SyslogObserver.make, SocketObserver.make,
        StdoutObserver.make, SocketObservable.addObserver, storeObserver, findObserver,
        hs', hj, ho', hd2]
    refine ⟨by simp [hsetup], ?_, ?_, ?_, ?_, ?_, ?_, hrun⟩
    · intro _
      simp [hsetup, findObserver]
    · intro hc
      exact absurd hj (not_lt.mpr hc)
    · intro _
      simp [hsetup, findObserver, hd2]
    · exact fun hc => absurd hc hs'
    · intro _ p hp
      simp [hsetup] at hp
      rcases hp with h | h <;> simp [h]
    · exact fun hc => absurd hc ho'
  · have hs' : ¬ sfd < 0 := not_lt.mpr hs
    have hj' : ¬ jfd < 0 := not_lt.mpr hj
    have hsetup : mainSetup sfd jfd ofd =
        ([(sfd.toNat, ⟨sfd.toNat, EKind.datagramSyslog, 0⟩),
          (jfd.toNat, ⟨jfd.toNat, EKind.datagramJournal, 1⟩)], ["socket failed"]) := by
      simp [mainSetup, tryAddObserver, SyslogObserver.make, SocketObserver.make,
        StdoutObserver.make, SocketObservable.addObserver, storeObserver, findObserver,
        hs', hj', ho, hd1]
    refine ⟨by simp [hsetup], ?_, ?_, ?_, ?_, ?_, ?_, hrun⟩
    · intro _
      simp [hsetup, findObserver]
    · intro _
      simp [hsetup, findObserver, hd1]
    · intro hc
      exact absurd ho (not_lt.mpr hc)
    · exact fun hc => absurd hc hs'
    · exact fun hc => absurd hc hj'
    · intro _ p hp
      simp [hsetup] at hp
      rcases hp with h | h <;> simp [h]

/-- Witness for claim C9: the syslog endpoint fails, the other two get
descriptors 4 and 5. -/
theorem main_one_failed_endpoint_registers_rest_witness :
    (((-1 : Int) < 0 ∧ (0 : Int) ≤ 4 ∧ (0 : Int) ≤ 5) ∨
      ((0 : Int) ≤ -1 ∧ (4 : Int) < 0 ∧ (0 : Int) ≤ 5) ∨
      ((0 : Int) ≤ -1 ∧ (0 : Int) ≤ 4 ∧ (5 : Int) < 0)) ∧
    (-1 : Int).toNat ≠ (4 : Int).toNat ∧ (-1 : Int).toNat ≠ (5 : Int).toNat ∧
    (4 : Int).toNat ≠ (5 : Int).toNat ∧
    ((mainSetup (-1) 4 5).2 = ["socket failed"] ∧
      ((0 : Int) ≤ -1 → findObserver (mainSetup (-1) 4 5).1 (-1 : Int).toNat
          = some ⟨(-1 : Int).toNat, EKind.datagramSyslog, 0⟩) ∧
      ((0 : Int) ≤ 4 → findObserver (mainSetup (-1) 4 5).1 (4 : Int).toNat
          = some ⟨(4 : Int).toNat, EKind.datagramJournal, 1⟩) ∧
      ((0 : Int) ≤ 5 → findObserver (mainSetup (-1) 4 5).1 (5 : Int).toNat
          = some ⟨(5 : Int).toNat, EKind.streamListener, 2⟩) ∧
      ((-1 : Int) < 0 → ∀ p ∈ (mainSetup (-1) 4 5).1, (p.2).kind ≠ EKind.datagramSyslog) ∧
      ((4 : Int) < 0 → ∀ p ∈ (mainSetup (-1) 4 5).1, (p.2).kind ≠ EKind.datagramJournal) ∧
      ((5 : Int) < 0 → ∀ p ∈ (mainSetup (-1) 4 5).1, (p.2).kind ≠ EKind.streamListener) ∧
      (mainRun (-1) 4 5 []).1 = (⟨(mainSetup (-1) 4 5).1, 3, [], []⟩, none)) :=
  ⟨Or.inl (by decide), by decide, by decide, by decide,
    main_one_failed_endpoint_registers_rest (-1) 4 5 (Or.inl (by decide))
      (by decide) (by decide) (by decide)⟩

/-- Claim C10 (refuted by the code; the code is the slip): every index the
syslog handler accesses is claimed to lie in `[0, len)`, in particular for
inputs of `<` followed by digits to the end of the buffer.  For the
two-byte buffer `<1` the digit scan ends at index 2 = `len`, and the
unguarded `buf[start] == '>'` test reads that index: the computed `start`
(the offset passed to `write`) depends on the stale byte beyond the
buffer. -/
theorem syslogHandler_reads_index_len :
    SyslogHandler.tagEnd [60, 49] = some 2 ∧
    ¬ (2 < ([60, 49] : List Byte).length) ∧
    SyslogHandler.start 62 [60, 49] = 3 ∧
    SyslogHandler.start 0 [60, 49] = 2 := by
  refine ⟨?_, by decide, ?_, ?_⟩ <;>
    simp [SyslogHandler.start, SyslogHandler.tagEnd, skipDigits, bufGetStale, isDigitByte]

end Nologd
